import Mathlib

/-!
Shallow embedding of the gsd-estimate package: a series loader that extracts
one column of strictly positive numbers from delimited tabular input, and a
calculator deriving geometric statistics in natural-log space.

Field values are modelled as cells that are either parseable as a number
(carried as a rational) or unparseable text; the delimited-file splitting
mechanics are outside the modelled core, so a source is a list of rows of
cells.  Real-valued statistics use Mathlib's Real.log, Real.exp, Real.sqrt.
-/

namespace GsdEstimate

/-- A field value: either parseable as a float (value carried as a rational)
or unparseable text (Python float() raises ValueError on it). -/
inductive Cell
  | num (q : ℚ)
  | text (s : String)
deriving DecidableEq

/-- Errors surfacing from loader.py.  The Python code has a single
ColumnNotFoundError class raised with three distinct messages, modelled by
the first three constructors; ValueError is what float() or
_parse_positive_float raise; typeError models an uncaught Python TypeError
(e.g. membership test on None fieldnames, or float(None) on a short row). -/
inductive LoaderError
  | missingHeader
  | columnNameNotFound (c : Cell)
  | columnIndexExceedsWidth (i : Int)
  | valueError
  | typeError
deriving DecidableEq

/-- Whether the error is (an instance of) the Python ColumnNotFoundError
class: all three message variants are that one class. -/
def LoaderError.isColumnNotFound : LoaderError → Bool
  | .missingHeader => true
  | .columnNameNotFound _ => true
  | .columnIndexExceedsWidth _ => true
  | _ => false

/-- loader._parse_positive_float: float(value), then reject parsed <= 0.
none models the ValueError raised on an unparseable or non-positive value. -/
def parse_positive_float : Cell → Option ℚ
  | .num q => if q ≤ 0 then none else some q
  | .text _ => none

/-- Index of the LAST occurrence of a key in the header row: dict(zip(h, r))
keeps the value of the last duplicate key, and DictReader's restval loop also
overwrites at the last occurrence. -/
def lastIdxOf : List Cell → Cell → Option Nat
  | [], _ => none
  | x :: xs, c =>
    match lastIdxOf xs c with
    | some j => some (j + 1)
    | none => if x = c then some 0 else none

/-- Iterating a csv.DictReader and yielding _parse_positive_float(row[eff]):
blank rows are skipped by DictReader; a row shorter than the header makes
row[eff] the restval None, and float(None) raises TypeError. -/
def read_named_rows (hdr : List Cell) (eff : Cell) :
    List (List Cell) → Except LoaderError (List ℚ)
  | [] => .ok []
  | row :: rest =>
    if row = [] then read_named_rows hdr eff rest
    else
      match lastIdxOf hdr eff with
      | none => .error .typeError
      | some j =>
        match row.get? j with
        | none => .error .typeError
        | some cell =>
          match parse_positive_float cell with
          | none => .error .valueError
          | some q =>
            match read_named_rows hdr eff rest with
            | .ok l => .ok (q :: l)
            | .error e => .error e

/-- loader._read_named_column over a DictReader.  An empty source leaves
fieldnames as None: with no column requested, fieldnames[0] raises TypeError
which is caught and rewrapped as the missing-header ColumnNotFoundError;
with a column requested, the membership test on None raises an uncaught
TypeError.  An empty first row gives empty fieldnames: fieldnames[0] raises
IndexError, caught and rewrapped the same way. -/
def read_named_column (rows : List (List Cell)) (column : Option Cell) :
    Except LoaderError (List ℚ) :=
  match rows with
  | [] =>
    match column with
    | none => .error .missingHeader
    | some _ => .error .typeError
  | hdr :: body =>
    match (match column with
           | none =>
             match hdr.head? with
             | none => Except.error LoaderError.missingHeader
             | some h => Except.ok h
           | some c => Except.ok c : Except LoaderError Cell) with
    | .error e => .error e
    | .ok eff =>
      if eff ∈ hdr then read_named_rows hdr eff body
      else .error (.columnNameNotFound eff)

/-- Python row[i] on a list: negative indices count from the end; out of
range raises IndexError (modelled as none). -/
def pyGet (row : List Cell) (i : Int) : Option Cell :=
  let j : Int := if i < 0 then i + row.length else i
  if 0 ≤ j then row.get? j.toNat else none

/-- loader._read_positional_column's enumerate loop.  On the first row only,
a ValueError from _parse_positive_float is caught; float(value) is retried:
if that also fails (unparseable text) the row is skipped as an assumed
header, otherwise (parseable but non-positive) the error is re-raised. -/
def read_positional_rows (i : Int) :
    List (List Cell) → Nat → Except LoaderError (List ℚ)
  | [], _ => .ok []
  | row :: rest, rowIndex =>
    match pyGet row i with
    | none => .error (.columnIndexExceedsWidth i)
    | some cell =>
      match parse_positive_float cell with
      | some q =>
        match read_positional_rows i rest (rowIndex + 1) with
        | .ok l => .ok (q :: l)
        | .error e => .error e
      | none =>
        if rowIndex = 0 then
          match cell with
          | .text _ => read_positional_rows i rest (rowIndex + 1)
          | .num _ => .error .valueError
        else .error .valueError

/-- loader._read_positional_column. -/
def read_positional_column (rows : List (List Cell)) (i : Int) :
    Except LoaderError (List ℚ) :=
  read_positional_rows i rows 0

/-- The public column argument: None, a name, or an integer index. -/
inductive PyColumn
  | none
  | str (c : Cell)
  | int (i : Int)

/-- loader.load_numeric_series: DictReader path when the column is None or a
string, positional path when it is an integer. -/
def load_numeric_series (rows : List (List Cell)) (column : PyColumn) :
    Except LoaderError (List ℚ) :=
  match column with
  | .none => read_named_column rows Option.none
  | .str c => read_named_column rows (Option.some c)
  | .int i => read_positional_column rows i

/-- calculator raises statistics.StatisticsError with one of two messages. -/
inductive StatisticsError
  | insufficientSamples
  | nonPositiveSample
deriving DecidableEq

/-- calculator.GSDStatistics: the frozen result record. -/
structure GSDStatistics where
  geometric_mean : ℝ
  geometric_standard_deviation : ℝ
  geometric_coefficient_of_variation : ℝ
  sample_size : ℕ

/-- calculator._validate_samples: the length check runs before the
positivity check. -/
def validate_samples (samples : List ℚ) : Option StatisticsError :=
  if samples.length < 2 then some .insufficientSamples
  else if samples.any (fun v => v ≤ 0) then some .nonPositiveSample
  else none

/-- calculator.GSDStatistics.from_samples: validation first, then the
log-space statistics. -/
noncomputable def GSDStatistics.from_samples (samples : List ℚ) :
    Except StatisticsError GSDStatistics :=
  match validate_samples samples with
  | some e => .error e
  | none =>
    let log_values : List ℝ := samples.map (fun (v : ℚ) => Real.log (v : ℝ))
    let log_mean : ℝ := log_values.sum / (log_values.length : ℝ)
    let geometric_mean : ℝ := Real.exp log_mean
    let squared_diffs : List ℝ := log_values.map (fun v => (v - log_mean) ^ 2)
    let log_variance : ℝ := squared_diffs.sum / ((log_values.length : ℝ) - 1)
    let geometric_standard_deviation : ℝ := Real.exp (Real.sqrt log_variance)
    let spread_term : ℝ := max 0 (geometric_standard_deviation ^ 2 - 1)
    let geometric_coefficient_of_variation : ℝ := Real.sqrt spread_term * 100
    .ok ⟨geometric_mean, geometric_standard_deviation,
         geometric_coefficient_of_variation, samples.length⟩

/-- calculator.compute_gsd: materialises the iterable (identity on lists)
and delegates to GSDStatistics.from_samples. -/
noncomputable def compute_gsd (samples : List ℚ) :
    Except StatisticsError GSDStatistics :=
  GSDStatistics.from_samples samples

/-- Spec formula: the natural logs of the samples. -/
noncomputable def spec_log_values (s : List ℚ) : List ℝ :=
  s.map (fun (v : ℚ) => Real.log (v : ℝ))

/-- Spec formula: arithmetic mean of the log values. -/
noncomputable def spec_log_mean (s : List ℚ) : ℝ :=
  (spec_log_values s).sum / (s.length : ℝ)

/-- Spec formula: geometric mean = exp of the mean log. -/
noncomputable def spec_geometric_mean (s : List ℚ) : ℝ :=
  Real.exp (spec_log_mean s)

/-- Spec formula: unbiased log-space variance with denominator n - 1. -/
noncomputable def spec_log_variance (s : List ℚ) : ℝ :=
  ((spec_log_values s).map (fun w => (w - spec_log_mean s) ^ 2)).sum /
    ((s.length : ℝ) - 1)

/-- Spec formula: geometric standard deviation. -/
noncomputable def spec_gsd (s : List ℚ) : ℝ :=
  Real.exp (Real.sqrt (spec_log_variance s))

/-- Spec formula: geometric coefficient of variation, in percent, with the
spread term clamped at zero. -/
noncomputable def spec_gcv (s : List ℚ) : ℝ :=
  Real.sqrt (max 0 (spec_gsd s ^ 2 - 1)) * 100

lemma validate_samples_eq_none (s : List ℚ) (h2 : 2 ≤ s.length)
    (hpos : ∀ x ∈ s, 0 < x) : validate_samples s = Option.none := by
  have hlen : ¬ s.length < 2 := by omega
  have hany : s.any (fun v => v ≤ 0) = false := by
    simp only [List.any_eq_false, decide_eq_true_eq]
    intro x hx
    exact not_le.mpr (hpos x hx)
  simp [validate_samples, hlen, hany]

lemma from_samples_ok (s : List ℚ) (h2 : 2 ≤ s.length)
    (hpos : ∀ x ∈ s, 0 < x) :
    GSDStatistics.from_samples s =
      .ok ⟨spec_geometric_mean s, spec_gsd s, spec_gcv s, s.length⟩ := by
  unfold GSDStatistics.from_samples
  rw [validate_samples_eq_none s h2 hpos]
  simp only [List.length_map]
  rfl

lemma spec_log_values_const (s : List ℚ) (c : ℚ) (hc : ∀ x ∈ s, x = c) :
    spec_log_values s = List.replicate s.length (Real.log (c : ℝ)) := by
  have hmem : ∀ y ∈ spec_log_values s, y = Real.log (c : ℝ) := by
    intro y hy
    simp only [spec_log_values, List.mem_map] at hy
    obtain ⟨v, hv, rfl⟩ := hy
    rw [hc v hv]
  have hlen : (spec_log_values s).length = s.length := by
    rw [spec_log_values, List.length_map]
  have hlv := List.eq_replicate_of_mem hmem
  rwa [hlen] at hlv

lemma spec_log_mean_const (s : List ℚ) (c : ℚ) (hc : ∀ x ∈ s, x = c)
    (hn : s.length ≠ 0) : spec_log_mean s = Real.log (c : ℝ) := by
  rw [spec_log_mean, spec_log_values_const s c hc, List.sum_replicate,
    nsmul_eq_mul]
  exact mul_div_cancel_left₀ _ (Nat.cast_ne_zero.mpr hn)

lemma spec_log_variance_const (s : List ℚ) (c : ℚ) (hc : ∀ x ∈ s, x = c)
    (hn : s.length ≠ 0) : spec_log_variance s = 0 := by
  rw [spec_log_variance, spec_log_values_const s c hc,
    spec_log_mean_const s c hc hn]
  simp [List.map_replicate, List.sum_replicate]

lemma spec_gsd_const (s : List ℚ) (c : ℚ) (hc : ∀ x ∈ s, x = c)
    (hn : s.length ≠ 0) : spec_gsd s = 1 := by
  rw [spec_gsd, spec_log_variance_const s c hc hn, Real.sqrt_zero,
    Real.exp_zero]

lemma spec_gcv_const (s : List ℚ) (c : ℚ) (hc : ∀ x ∈ s, x = c)
    (hn : s.length ≠ 0) : spec_gcv s = 0 := by
  rw [spec_gcv, spec_gsd_const s c hc hn]
  norm_num

/-- C1: for every sequence of at least two strictly-positive samples,
compute_gsd and GSDStatistics.from_samples return the record whose
geometric mean is exp of the arithmetic mean of the natural logs, whose
geometric standard deviation is exp of the square root of the unbiased
(n-1 denominator) log-space variance, whose geometric coefficient of
variation is sqrt(max(0, gsd^2 - 1)) * 100, and whose sample_size is the
input length. -/
theorem compute_gsd_matches_spec_formulas (s : List ℚ) (h2 : 2 ≤ s.length)
    (hpos : ∀ x ∈ s, 0 < x) :
    compute_gsd s =
      .ok ⟨spec_geometric_mean s, spec_gsd s, spec_gcv s, s.length⟩ ∧
    GSDStatistics.from_samples s =
      .ok ⟨spec_geometric_mean s, spec_gsd s, spec_gcv s, s.length⟩ :=
  ⟨from_samples_ok s h2 hpos, from_samples_ok s h2 hpos⟩

/-- Witness for C1 at the concrete sample list [1, 2]. -/
theorem compute_gsd_matches_spec_formulas_witness :
    compute_gsd [1, 2] =
      .ok ⟨spec_geometric_mean [1, 2], spec_gsd [1, 2], spec_gcv [1, 2], 2⟩ ∧
    GSDStatistics.from_samples [1, 2] =
      .ok ⟨spec_geometric_mean [1, 2], spec_gsd [1, 2], spec_gcv [1, 2], 2⟩ :=
  compute_gsd_matches_spec_formulas [1, 2] (by decide) (by decide)

/-- C4: compute_gsd raises the insufficient-samples StatisticsError on every
sequence of length 0 or 1, and the non-positive-sample StatisticsError on
every sequence of length at least 2 containing a value at most 0, in any
position; both checks precede any statistic and no partial result exists. -/
theorem compute_gsd_validation_errors :
    (∀ s : List ℚ, s.length < 2 →
      compute_gsd s = .error .insufficientSamples) ∧
    (∀ s : List ℚ, 2 ≤ s.length → (∃ x ∈ s, x ≤ 0) →
      compute_gsd s = .error .nonPositiveSample) := by
  constructor
  · intro s h
    unfold compute_gsd GSDStatistics.from_samples validate_samples
    rw [if_pos h]
  · intro s h2 hex
    have hany : s.any (fun v => v ≤ 0) = true := by
      simp only [List.any_eq_true, decide_eq_true_eq]
      obtain ⟨x, hx, hxle⟩ := hex
      exact ⟨x, hx, hxle⟩
    unfold compute_gsd GSDStatistics.from_samples validate_samples
    rw [if_neg (by omega), if_pos hany]

/-- Witness for C4 at the empty list and at [1, -1]. -/
theorem compute_gsd_validation_errors_witness :
    compute_gsd [] = .error .insufficientSamples ∧
    compute_gsd [1, -1] = .error .nonPositiveSample :=
  ⟨compute_gsd_validation_errors.1 [] (by decide),
   compute_gsd_validation_errors.2 [1, -1] (by decide)
     ⟨-1, by decide, by norm_num⟩⟩

/-- C9: on a sequence of length 0 or 1 that also contains a non-positive
value, compute_gsd still raises the insufficient-samples error: the length
check runs before the positivity check. -/
theorem insufficient_samples_precedes_positivity (s : List ℚ)
    (hlen : s.length ≤ 1) (hneg : ∃ x ∈ s, x ≤ 0) :
    compute_gsd s = .error .insufficientSamples := by
  unfold compute_gsd GSDStatistics.from_samples validate_samples
  rw [if_pos (by omega)]

/-- Witness for C9 at the singleton [-1]. -/
theorem insufficient_samples_precedes_positivity_witness :
    compute_gsd [-1] = .error .insufficientSamples :=
  insufficient_samples_precedes_positivity [-1] (by decide)
    ⟨-1, by decide, by norm_num⟩

/-- C7: on any sequence of length at least 2 whose samples are all equal to
one positive value, compute_gsd returns geometric_standard_deviation 1 and
geometric_coefficient_of_variation 0. -/
theorem compute_gsd_identical_samples (s : List ℚ) (c : ℚ)
    (hc : ∀ x ∈ s, x = c) (h2 : 2 ≤ s.length) (hcpos : 0 < c) :
    ∃ r : GSDStatistics, compute_gsd s = .ok r ∧
      r.geometric_standard_deviation = 1 ∧
      r.geometric_coefficient_of_variation = 0 := by
  have hpos : ∀ x ∈ s, 0 < x := fun x hx => (hc x hx) ▸ hcpos
  have hn : s.length ≠ 0 := by omega
  refine ⟨_, from_samples_ok s h2 hpos, ?_, ?_⟩
  · exact spec_gsd_const s c hc hn
  · exact spec_gcv_const s c hc hn

/-- Witness for C7 at the concrete sample list [2, 2]. -/
theorem compute_gsd_identical_samples_witness :
    ∃ r : GSDStatistics, compute_gsd [2, 2] = .ok r ∧
      r.geometric_standard_deviation = 1 ∧
      r.geometric_coefficient_of_variation = 0 :=
  compute_gsd_identical_samples [2, 2] 2 (by decide) (by decide) (by decide)

/-- C8: the loader and the calculator are pure: equal inputs give equal
outputs, for load_numeric_series on identical row contents and identical
column arguments, and for compute_gsd on equal sample sequences. -/
theorem load_and_compute_deterministic :
    (∀ (rows1 rows2 : List (List Cell)) (col1 col2 : PyColumn),
      rows1 = rows2 → col1 = col2 →
      load_numeric_series rows1 col1 = load_numeric_series rows2 col2) ∧
    (∀ s1 s2 : List ℚ, s1 = s2 → compute_gsd s1 = compute_gsd s2) := by
  constructor
  · intro rows1 rows2 col1 col2 h1 h2
    rw [h1, h2]
  · intro s1 s2 h
    rw [h]

/-- Witness for C8 at a concrete one-row file and a concrete sample list. -/
theorem load_and_compute_deterministic_witness :
    load_numeric_series [[Cell.num 2]] (PyColumn.int 0) =
      load_numeric_series [[Cell.num 2]] (PyColumn.int 0) ∧
    compute_gsd [1, 2] = compute_gsd [1, 2] :=
  ⟨load_and_compute_deterministic.1 [[Cell.num 2]] [[Cell.num 2]]
      (PyColumn.int 0) (PyColumn.int 0) rfl rfl,
   load_and_compute_deterministic.2 [1, 2] [1, 2] rfl⟩

lemma parse_positive_float_pos (c : Cell) (q : ℚ)
    (h : parse_positive_float c = some q) : 0 < q := by
  cases c with
  | num r =>
    by_cases hr : r ≤ 0
    · simp [parse_positive_float, hr] at h
    · simp [parse_positive_float, hr] at h
      exact h ▸ lt_of_not_le hr
  | text s => simp [parse_positive_float] at h

lemma read_named_rows_pos (hdr : List Cell) (eff : Cell)
    (body : List (List Cell)) :
    ∀ l : List ℚ, read_named_rows hdr eff body = .ok l → ∀ x ∈ l, 0 < x := by
  induction body with
  | nil =>
    intro l h x hx
    simp only [read_named_rows] at h
    cases h
    simp at hx
  | cons row rest ih =>
    intro l h x hx
    simp only [read_named_rows] at h
    split at h
    · exact ih l h x hx
    · split at h
      · exact Except.noConfusion h
      · split at h
        · exact Except.noConfusion h
        · rename_i cell hcell
          split at h
          · exact Except.noConfusion h
          · rename_i q hq
            split at h
            · rename_i l2 hl2
              cases h
              rcases List.mem_cons.mp hx with hxq | hxl
              · exact hxq ▸ parse_positive_float_pos cell q hq
              · exact ih l2 hl2 x hxl
            · exact Except.noConfusion h

lemma read_positional_rows_pos (i : Int) (rows : List (List Cell)) :
    ∀ (k : Nat) (l : List ℚ),
      read_positional_rows i rows k = .ok l → ∀ x ∈ l, 0 < x := by
  induction rows with
  | nil =>
    intro k l h x hx
    simp only [read_positional_rows] at h
    cases h
    simp at hx
  | cons row rest ih =>
    intro k l h x hx
    simp only [read_positional_rows] at h
    split at h
    · exact Except.noConfusion h
    · rename_i cell hcell
      split at h
      · rename_i q hq
        split at h
        · rename_i l2 hl2
          cases h
          rcases List.mem_cons.mp hx with hxq | hxl
          · exact hxq ▸ parse_positive_float_pos cell q hq
          · exact ih (k + 1) l2 hl2 x hxl
        · exact Except.noConfusion h
      · split at h
        · split at h
          · exact ih (k + 1) l h x hx
          · exact Except.noConfusion h
        · exact Except.noConfusion h

lemma read_named_column_pos (rows : List (List Cell)) (column : Option Cell)
    (l : List ℚ) (h : read_named_column rows column = .ok l) :
    ∀ x ∈ l, 0 < x := by
  unfold read_named_column at h
  split at h
  · split at h <;> exact Except.noConfusion h
  · rename_i hdr body
    split at h
    · exact Except.noConfusion h
    · rename_i eff heff
      split at h
      · exact read_named_rows_pos hdr eff body l h
      · exact Except.noConfusion h

/-- C5: whenever load_numeric_series returns without error, every element of
the returned sequence is strictly positive; and the result may be empty, as
on a source holding only a header row. -/
theorem load_numeric_series_positive :
    (∀ (rows : List (List Cell)) (col : PyColumn) (l : List ℚ),
      load_numeric_series rows col = .ok l → ∀ x ∈ l, 0 < x) ∧
    load_numeric_series [[Cell.text "value"]]
      (PyColumn.str (Cell.text "value")) = .ok [] := by
  constructor
  · intro rows col l h x hx
    cases col with
    | none => exact read_named_column_pos rows Option.none l h x hx
    | str c => exact read_named_column_pos rows (Option.some c) l h x hx
    | int i => exact read_positional_rows_pos i rows 0 l h x hx
  · rfl

/-- Witness for C5's positivity invariant at a concrete positional load. -/
theorem load_numeric_series_positive_witness :
    load_numeric_series [[Cell.num 2], [Cell.num 3]] (PyColumn.int 0) =
      .ok [2, 3] ∧ (0 : ℚ) < 2 :=
  ⟨rfl, load_numeric_series_positive.1 [[Cell.num 2], [Cell.num 3]]
    (PyColumn.int 0) [2, 3] rfl 2 (by decide)⟩

lemma read_positional_rows_all_pos (qs : List ℚ) :
    ∀ k : Nat, (∀ q ∈ qs, 0 < q) →
      read_positional_rows 0 (qs.map (fun q => [Cell.num q])) k = .ok qs := by
  induction qs with
  | nil => intro k _; rfl
  | cons q rest ih =>
    intro k hpos
    have hq : ¬ q ≤ 0 := not_le.mpr (hpos q (List.mem_cons_self q rest))
    simp only [List.map_cons, read_positional_rows,
      show pyGet [Cell.num q] 0 = some (Cell.num q) from rfl,
      show parse_positive_float (Cell.num q) = some q from by
        simp [parse_positive_float, hq],
      ih (k + 1) (fun x hx => hpos x (List.mem_cons_of_mem q hx))]

lemma read_positional_rows_later_parse_error (i : Int)
    (good : List (List Cell)) (badRow : List Cell)
    (rest : List (List Cell)) (c : Cell) :
    ∀ k : Nat, 0 < k + good.length →
      (∀ row ∈ good, ∃ cc q, pyGet row i = some cc ∧
        parse_positive_float cc = some q) →
      pyGet badRow i = some c → parse_positive_float c = none →
      read_positional_rows i (good ++ badRow :: rest) k =
        .error .valueError := by
  induction good with
  | nil =>
    intro k hk _ hbad hparse
    simp only [List.length_nil, Nat.add_zero] at hk
    simp only [List.nil_append, read_positional_rows, hbad, hparse,
      if_neg (by omega : ¬ k = 0)]
  | cons row grest ih =>
    intro k _ hgood hbad hparse
    obtain ⟨cc, q, hc, hq⟩ := hgood row (List.mem_cons_self row grest)
    simp only [List.cons_append, List.append_eq, read_positional_rows, hc,
      hq, ih (k + 1) (by omega)
        (fun r hr => hgood r (List.mem_cons_of_mem row hr)) hbad hparse]

/-- C2 counterexample: positionally loading rows [-1], [2], [3] at index 0
raises the ValueError immediately at row 0 instead of skipping it: a first
row that parses as a number but is non-positive is NOT treated as a header
label, contradicting the claim that any first row unparseable as a
positive number is silently skipped. -/
theorem positional_nonpositive_first_row_not_skipped :
    load_numeric_series [[Cell.num (-1)], [Cell.num 2], [Cell.num 3]]
      (PyColumn.int 0) = .error .valueError ∧
    load_numeric_series [[Cell.num (-1)], [Cell.num 2], [Cell.num 3]]
      (PyColumn.int 0) ≠ .ok [2, 3] := by
  refine ⟨rfl, ?_⟩
  intro h
  exact Except.noConfusion h

/-- C2 amended: in positional mode the first row is silently skipped only
when its value cannot be parsed as a number at all; a first-row value that
parses as a number but is non-positive raises the ValueError; a first
row that parses as a positive number is included as real data; and any
later row whose value fails the positive parse raises the ValueError
normally (after any prefix of rows that parse successfully).  Hence for a
non-numeric row 0 followed by n positive rows the result has length n. -/
theorem positional_first_row_allowance :
    (∀ (s : String) (qs : List ℚ), (∀ q ∈ qs, 0 < q) →
      load_numeric_series ([Cell.text s] :: qs.map (fun q => [Cell.num q]))
        (PyColumn.int 0) = .ok qs) ∧
    (∀ (q : ℚ) (rest : List (List Cell)), q ≤ 0 →
      load_numeric_series ([Cell.num q] :: rest) (PyColumn.int 0) =
        .error .valueError) ∧
    (∀ (q : ℚ) (qs : List ℚ), 0 < q → (∀ x ∈ qs, 0 < x) →
      load_numeric_series ([Cell.num q] :: qs.map (fun x => [Cell.num x]))
        (PyColumn.int 0) = .ok (q :: qs)) ∧
    (∀ (i : Int) (good : List (List Cell)) (badRow : List Cell)
        (rest : List (List Cell)) (c : Cell), good ≠ [] →
      (∀ row ∈ good, ∃ cc q, pyGet row i = some cc ∧
        parse_positive_float cc = some q) →
      pyGet badRow i = some c → parse_positive_float c = none →
      load_numeric_series (good ++ badRow :: rest) (PyColumn.int i) =
        .error .valueError) := by
  refine ⟨?_, ?_, ?_, ?_⟩
  · intro s qs hpos
    simp only [load_numeric_series, read_positional_column,
      read_positional_rows,
      show pyGet [Cell.text s] 0 = some (Cell.text s) from rfl,
      show parse_positive_float (Cell.text s) = none from rfl,
      if_pos rfl, if_true, read_positional_rows_all_pos qs 1 hpos]
  · intro q rest hq
    simp only [load_numeric_series, read_positional_column,
      read_positional_rows,
      show pyGet [Cell.num q] 0 = some (Cell.num q) from rfl,
      show parse_positive_float (Cell.num q) = none from by
        simp [parse_positive_float, hq],
      if_pos rfl, if_true]
  · intro q qs hqpos hpos
    have h := read_positional_rows_all_pos (q :: qs) 0 (by
      intro x hx
      rcases List.mem_cons.mp hx with hxq | hxl
      · exact hxq ▸ hqpos
      · exact hpos x hxl)
    simpa only [List.map_cons, load_numeric_series,
      read_positional_column] using h
  · intro i good badRow rest c hne hgood hbad hparse
    have hlen : 0 < (0 : Nat) + good.length := by
      cases good with
      | nil => exact absurd rfl hne
      | cons a l => simp
    exact read_positional_rows_later_parse_error i good badRow rest c 0
      hlen hgood hbad hparse

/-- Witness for the amended C2 at concrete inputs: a non-numeric first row
is skipped, a non-positive numeric first row raises, a positive first
row is kept, and a non-numeric second row raises. -/
theorem positional_first_row_allowance_witness :
    load_numeric_series [[Cell.text "label"], [Cell.num 2], [Cell.num 3]]
      (PyColumn.int 0) = .ok [2, 3] ∧
    load_numeric_series [[Cell.num 0], [Cell.num 2]] (PyColumn.int 0) =
      .error .valueError ∧
    load_numeric_series [[Cell.num 5], [Cell.num 2]] (PyColumn.int 0) =
      .ok [5, 2] ∧
    load_numeric_series [[Cell.num 2], [Cell.text "oops"]]
      (PyColumn.int 0) = .error .valueError :=
  ⟨positional_first_row_allowance.1 "label" [2, 3] (by decide),
   positional_first_row_allowance.2.1 0 [[Cell.num 2]] (by norm_num),
   positional_first_row_allowance.2.2.1 5 [2] (by norm_num) (by decide),
   positional_first_row_allowance.2.2.2 0 [[Cell.num 2]]
      [Cell.text "oops"] [] (Cell.text "oops") (by decide)
      (by
        intro row hr
        rw [List.mem_singleton] at hr
        exact ⟨Cell.num 2, 2, by rw [hr]; rfl,
          by norm_num [parse_positive_float]⟩)
      rfl rfl⟩

/-- C3 counterexample: on an empty source (no header row), named-column mode
with an explicit column name raises an uncaught TypeError (membership test
on None fieldnames), not the missing-header condition. -/
theorem named_mode_empty_source_type_error :
    load_numeric_series [] (PyColumn.str (Cell.text "value")) =
      .error .typeError ∧
    load_numeric_series [] (PyColumn.str (Cell.text "value")) ≠
      .error .missingHeader := by
  refine ⟨rfl, ?_⟩
  intro h
  injection h with h2
  exact LoaderError.noConfusion h2

/-- C3 amended: on a source with no header row, named-column mode with the
column unspecified fails with the missing-header condition (raised as a
ColumnNotFoundError carrying the missing-header message); the same holds
when the first row is empty; but with an explicit column name the code
instead raises an uncaught TypeError. -/
theorem missing_header_condition :
    load_numeric_series [] PyColumn.none = .error .missingHeader ∧
    (∀ body : List (List Cell),
      load_numeric_series ([] :: body) PyColumn.none =
        .error .missingHeader) ∧
    (∀ c : Cell,
      load_numeric_series [] (PyColumn.str c) = .error .typeError) :=
  ⟨rfl, fun _ => rfl, fun _ => rfl⟩

/-- Witness for the amended C3 at a concrete body and column name. -/
theorem missing_header_condition_witness :
    load_numeric_series [[], [Cell.num 1]] PyColumn.none =
      .error .missingHeader ∧
    load_numeric_series [] (PyColumn.str (Cell.text "value")) =
      .error .typeError :=
  ⟨missing_header_condition.2.1 [[Cell.num 1]],
   missing_header_condition.2.2 (Cell.text "value")⟩

/-- C10: a negative positional index is accepted and selects the field
counting from the end of the row, Python-style: for a row with at least
as many fields as the magnitude of the index, row[i] is field
length + i; and a two-column load with index -1 reads the second
(last) field of every row. -/
theorem negative_index_counts_from_end :
    (∀ (row : List Cell) (i : Int), i < 0 → (-i).toNat ≤ row.length →
      pyGet row i = row.get? (row.length - (-i).toNat)) ∧
    (∀ (a b : String) (q1 q2 : ℚ), 0 < q1 → 0 < q2 →
      load_numeric_series
        [[Cell.text a, Cell.num q1], [Cell.text b, Cell.num q2]]
        (PyColumn.int (-1)) = .ok [q1, q2]) := by
  constructor
  · intro row i hi hle
    have h0 : (0 : Int) ≤ i + row.length := by omega
    simp only [pyGet]
    rw [if_pos hi, if_pos h0]
    congr 1
    omega
  · intro a b q1 q2 hq1 hq2
    simp only [load_numeric_series, read_positional_column,
      read_positional_rows,
      show pyGet [Cell.text a, Cell.num q1] (-1) = some (Cell.num q1)
        from rfl,
      show pyGet [Cell.text b, Cell.num q2] (-1) = some (Cell.num q2)
        from rfl,
      show parse_positive_float (Cell.num q1) = some q1 from by
        simp [parse_positive_float, not_le.mpr hq1],
      show parse_positive_float (Cell.num q2) = some q2 from by
        simp [parse_positive_float, not_le.mpr hq2]]

/-- Witness for C10 at a concrete row and a concrete two-column load. -/
theorem negative_index_counts_from_end_witness :
    pyGet [Cell.num 7, Cell.num 8] (-1) =
      [Cell.num 7, Cell.num 8].get? (2 - 1) ∧
    load_numeric_series
      [[Cell.text "h", Cell.num 5], [Cell.text "k", Cell.num 6]]
      (PyColumn.int (-1)) = .ok [5, 6] :=
  ⟨negative_index_counts_from_end.1 [Cell.num 7, Cell.num 8] (-1)
      (by norm_num) (by norm_num),
   negative_index_counts_from_end.2 "h" "k" 5 6 (by norm_num) (by norm_num)⟩

lemma read_named_rows_error (hdr : List Cell) (eff : Cell)
    (body : List (List Cell)) :
    ∀ e : LoaderError, read_named_rows hdr eff body = .error e →
      e = .typeError ∨ e = .valueError := by
  induction body with
  | nil =>
    intro e h
    simp only [read_named_rows] at h
    exact Except.noConfusion h
  | cons row rest ih =>
    intro e h
    simp only [read_named_rows] at h
    split at h
    · exact ih e h
    · split at h
      · cases h
        exact Or.inl rfl
      · split at h
        · cases h
          exact Or.inl rfl
        · split at h
          · cases h
            exact Or.inr rfl
          · split at h
            · exact Except.noConfusion h
            · rename_i e2 he2
              cases h
              exact ih _ he2

lemma read_positional_rows_error (i : Int) (rows : List (List Cell)) :
    ∀ (k : Nat) (e : LoaderError), read_positional_rows i rows k = .error e →
      e = .valueError ∨ e = .columnIndexExceedsWidth i := by
  induction rows with
  | nil =>
    intro k e h
    simp only [read_positional_rows] at h
    exact Except.noConfusion h
  | cons row rest ih =>
    intro k e h
    simp only [read_positional_rows] at h
    split at h
    · cases h
      exact Or.inr rfl
    · split at h
      · split at h
        · exact Except.noConfusion h
        · rename_i e2 he2
          cases h
          exact ih (k + 1) _ he2
      · split at h
        · split at h
          · exact ih (k + 1) e h
          · cases h
            exact Or.inl rfl
        · cases h
          exact Or.inl rfl

lemma read_positional_rows_reaches_short (i : Int)
    (good : List (List Cell)) (shortRow : List Cell)
    (rest : List (List Cell)) :
    ∀ k : Nat,
      (∀ row ∈ good, ∃ c q, pyGet row i = some c ∧
        parse_positive_float c = some q) →
      pyGet shortRow i = none →
      read_positional_rows i (good ++ shortRow :: rest) k =
        .error (.columnIndexExceedsWidth i) := by
  induction good with
  | nil =>
    intro k _ hshort
    simp only [List.nil_append, read_positional_rows, hshort]
  | cons row grest ih =>
    intro k hgood hshort
    obtain ⟨c, q, hc, hq⟩ := hgood row (List.mem_cons_self row grest)
    simp only [List.cons_append, List.append_eq, read_positional_rows, hc,
      hq, ih (k + 1) (fun r hr => hgood r (List.mem_cons_of_mem row hr))
        hshort]

/-- C6 counterexample: positionally loading rows [-1], [] at index 0 raises
the ValueError at row 0, not ColumnNotFoundError, even though the second
row has fewer fields than index 0 requires (its lookup yields none): the
claimed "exactly when some row has fewer fields" fails because an earlier
parse failure preempts the short row. -/
theorem positional_parse_error_preempts_short_row :
    load_numeric_series [[Cell.num (-1)], []] (PyColumn.int 0) =
      .error .valueError ∧
    LoaderError.valueError.isColumnNotFound = false ∧
    pyGet [] 0 = (Option.none : Option Cell) :=
  ⟨rfl, rfl, rfl⟩

/-- C6 amended: ColumnNotFoundError arises exactly from these situations:
in named mode with a header present it is raised iff the requested name is
absent from the header fields, and then it names that column; in positional
mode every ColumnNotFoundError carries the requested index, and it is
raised when the scan reaches a row with fewer fields than the index
requires with every earlier row parsing successfully; a short row standing
after a row that fails the positive parse is not reported, the parse error
wins.  (The missing-header failure of the unspecified-column mode is also
raised as a ColumnNotFoundError; it is covered by C3.) -/
theorem column_not_found_exactly_characterized :
    (∀ (hdr : List Cell) (body : List (List Cell)) (c : Cell), c ∉ hdr →
      load_numeric_series (hdr :: body) (PyColumn.str c) =
        .error (.columnNameNotFound c)) ∧
    (∀ (hdr : List Cell) (body : List (List Cell)) (c : Cell)
        (e : LoaderError), c ∈ hdr →
      load_numeric_series (hdr :: body) (PyColumn.str c) = .error e →
      e.isColumnNotFound = false) ∧
    (∀ (rows : List (List Cell)) (i : Int) (e : LoaderError),
      load_numeric_series rows (PyColumn.int i) = .error e →
      e.isColumnNotFound = true → e = .columnIndexExceedsWidth i) ∧
    (∀ (i : Int) (good : List (List Cell)) (shortRow : List Cell)
        (rest : List (List Cell)),
      (∀ row ∈ good, ∃ c q, pyGet row i = some c ∧
        parse_positive_float c = some q) →
      pyGet shortRow i = none →
      load_numeric_series (good ++ shortRow :: rest) (PyColumn.int i) =
        .error (.columnIndexExceedsWidth i)) := by
  refine ⟨?_, ?_, ?_, ?_⟩
  · intro hdr body c hc
    simp only [load_numeric_series, read_named_column]
    rw [if_neg hc]
  · intro hdr body c e hc h
    simp only [load_numeric_series, read_named_column] at h
    rw [if_pos hc] at h
    rcases read_named_rows_error hdr c body e h with h1 | h1 <;>
      simp [h1, LoaderError.isColumnNotFound]
  · intro rows i e h hcnf
    rcases read_positional_rows_error i rows 0 e h with h1 | h1
    · rw [h1] at hcnf
      simp [LoaderError.isColumnNotFound] at hcnf
    · exact h1
  · intro i good shortRow rest hgood hshort
    exact read_positional_rows_reaches_short i good shortRow rest 0
      hgood hshort

/-- Witness for the amended C6 at concrete inputs for all four parts. -/
theorem column_not_found_exactly_characterized_witness :
    load_numeric_series [[Cell.text "value"]]
      (PyColumn.str (Cell.text "other")) =
      .error (.columnNameNotFound (Cell.text "other")) ∧
    LoaderError.typeError.isColumnNotFound = false ∧
    LoaderError.columnIndexExceedsWidth 1 =
      LoaderError.columnIndexExceedsWidth 1 ∧
    load_numeric_series [[Cell.num 3], []] (PyColumn.int 0) =
      .error (.columnIndexExceedsWidth 0) :=
  ⟨column_not_found_exactly_characterized.1 [Cell.text "value"] []
      (Cell.text "other") (by decide),
   column_not_found_exactly_characterized.2.1 [Cell.text "v", Cell.text "w"]
      [[Cell.num 3]] (Cell.text "w") .typeError (by decide) rfl,
   column_not_found_exactly_characterized.2.2.1
      [[Cell.num 5], [Cell.num 6]] 1 (.columnIndexExceedsWidth 1) rfl rfl,
   column_not_found_exactly_characterized.2.2.2 0 [[Cell.num 3]] [] []
      (by
        intro row hr
        rw [List.mem_singleton] at hr
        exact ⟨Cell.num 3, 3, by rw [hr]; rfl, by norm_num [parse_positive_float]⟩)
      rfl⟩

end GsdEstimate
